import Mathlib

/-!
Verification model of the statistical core of the checkout-flow-optimization
repository (`src/analysis/stats_framework.py` and `src/analysis/sensitivity.py`).

Real-valued library routines (`math.erf`, `math.sqrt`, `math.log`) are modelled
over `ℝ`; the error function is defined by its standard integral formula.
Guardrail evaluation only uses field arithmetic and comparisons, so it is
modelled over `ℚ` and stays executable.
-/

open MeasureTheory

/-- The Gauss error function, the mathematical function computed by `math.erf`. -/
noncomputable def erf (x : ℝ) : ℝ :=
  2 / Real.sqrt Real.pi * ∫ t in (0:ℝ)..x, Real.exp (-t ^ 2)

/-!
## `src/analysis/stats_framework.py`
-/

/-- Rational approximation of the probit (Abramowitz–Stegun 26.2.23),
the branch of `_inverse_normal_cdf` used when no shortcut applies. -/
noncomputable def inverse_normal_cdf_approx (p : ℝ) : ℝ :=
  let t := Real.sqrt (-2 * Real.log p);
  -(t - (2.515517 + 0.802853 * t + 0.010328 * t ^ 2) /
      (1 + 1.432788 * t + 0.189269 * t ^ 2 + 0.001308 * t ^ 3))

/-- `_inverse_normal_cdf` restricted to the non-recursing case `p ≤ 0.5`:
tabulated shortcuts for the two common alphas, otherwise the approximation. -/
noncomputable def inverse_normal_cdf_base (p : ℝ) : ℝ :=
  if |p - 0.025| < 1e-6 then -1.96
  else if |p - 0.005| < 1e-6 then -2.576
  else inverse_normal_cdf_approx p

/-- `_inverse_normal_cdf` from `stats_framework.py`. The `p > 0.5` branch
recurses once on `1 - p < 0.5` and negates; that single recursive call is
unfolded here into `inverse_normal_cdf_base`. The domain check
(`p ≤ 0` or `p ≥ 1` raises) is a caller precondition at every call site. -/
noncomputable def inverse_normal_cdf (p : ℝ) : ℝ :=
  if |p - 0.025| < 1e-6 then -1.96
  else if |p - 0.005| < 1e-6 then -2.576
  else if 0.5 < p then -(inverse_normal_cdf_base (1 - p))
  else inverse_normal_cdf_approx p

/-- The dictionary returned by `two_proportion_test`. Python's
`float("inf")` for `effect_rel` at `p_a = 0` is modelled by `⊤ : EReal`. -/
structure TestResult where
  p_value : ℝ
  ci_low : ℝ
  ci_high : ℝ
  effect_abs : ℝ
  effect_rel : EReal

/-- The local `p_a` (resp. `p_b`) of `two_proportion_test`. -/
noncomputable def sample_proportion (successes total : ℤ) : ℝ :=
  (successes : ℝ) / (total : ℝ)

/-- The local `effect_abs` of `two_proportion_test`: `p_b - p_a`. -/
noncomputable def tptEffectAbs (successes_a total_a successes_b total_b : ℤ) : ℝ :=
  sample_proportion successes_b total_b - sample_proportion successes_a total_a

/-- The local `p_pooled` of `two_proportion_test`. -/
noncomputable def tptPPooled (successes_a total_a successes_b total_b : ℤ) : ℝ :=
  ((successes_a : ℝ) + (successes_b : ℝ)) / ((total_a : ℝ) + (total_b : ℝ))

/-- The local `se_pooled` of `two_proportion_test`. -/
noncomputable def tptSePooled (successes_a total_a successes_b total_b : ℤ) : ℝ :=
  Real.sqrt (tptPPooled successes_a total_a successes_b total_b *
    (1 - tptPPooled successes_a total_a successes_b total_b) *
    (1 / (total_a : ℝ) + 1 / (total_b : ℝ)))

/-- The local `z_stat` of `two_proportion_test`:
`effect_abs / se_pooled if se_pooled > 0 else 0`. -/
noncomputable def tptZStat (successes_a total_a successes_b total_b : ℤ) : ℝ :=
  if 0 < tptSePooled successes_a total_a successes_b total_b then
    tptEffectAbs successes_a total_a successes_b total_b /
      tptSePooled successes_a total_a successes_b total_b
  else 0

/-- The local `p_value` of `two_proportion_test`:
`2 * (1 - 0.5 * (1 + erf(|z_stat| / sqrt 2)))`. -/
noncomputable def tptPValue (successes_a total_a successes_b total_b : ℤ) : ℝ :=
  2 * (1 - 0.5 *
    (1 + erf (|tptZStat successes_a total_a successes_b total_b| / Real.sqrt 2)))

/-- Body of `two_proportion_test` after input validation. -/
noncomputable def two_proportion_test_core
    (successes_a total_a successes_b total_b : ℤ) (alpha : ℝ) : TestResult :=
  let p_a : ℝ := sample_proportion successes_a total_a
  let p_b : ℝ := sample_proportion successes_b total_b
  let effect_abs := tptEffectAbs successes_a total_a successes_b total_b
  let effect_rel : EReal := if 0 < p_a then (((p_b - p_a) / p_a : ℝ) : EReal) else ⊤
  let se_unpooled :=
    Real.sqrt (p_a * (1 - p_a) / (total_a : ℝ) + p_b * (1 - p_b) / (total_b : ℝ))
  let z_crit := if alpha = 0.05 then 1.96 else |inverse_normal_cdf (alpha / 2)|
  { p_value := tptPValue successes_a total_a successes_b total_b
    ci_low := effect_abs - z_crit * se_unpooled
    ci_high := effect_abs + z_crit * se_unpooled
    effect_abs := effect_abs
    effect_rel := effect_rel }

/-- `two_proportion_test` from `stats_framework.py`; a raised `ValueError`
is modelled as `Except.error` with the exception's message. -/
noncomputable def two_proportion_test
    (successes_a total_a successes_b total_b : ℤ) (alpha : ℝ) :
    Except String TestResult :=
  if total_a ≤ 0 ∨ total_b ≤ 0 then
    .error "Total observations must be positive"
  else if successes_a < 0 ∨ successes_b < 0 then
    .error "Successes cannot be negative"
  else if total_a < successes_a ∨ total_b < successes_b then
    .error "Successes cannot exceed total observations"
  else if ¬(0 < alpha ∧ alpha < 1) then
    .error "Alpha must be between 0 and 1"
  else
    .ok (two_proportion_test_core successes_a total_a successes_b total_b alpha)

/-- The dictionary returned by `proportion_ci`. -/
structure ProportionCI where
  rate : ℝ
  ci_low : ℝ
  ci_high : ℝ

/-- Body of `proportion_ci` after input validation. -/
noncomputable def proportion_ci_core (successes total : ℤ) (alpha : ℝ) : ProportionCI :=
  let rate : ℝ := (successes : ℝ) / (total : ℝ)
  let se := Real.sqrt (rate * (1 - rate) / (total : ℝ))
  let z_crit := if alpha = 0.05 then 1.96 else |inverse_normal_cdf (alpha / 2)|
  { rate := rate
    ci_low := max 0 (rate - z_crit * se)
    ci_high := min 1 (rate + z_crit * se) }

/-- `proportion_ci` from `stats_framework.py` (Wald interval). -/
noncomputable def proportion_ci (successes total : ℤ) (alpha : ℝ) :
    Except String ProportionCI :=
  if total ≤ 0 then
    .error "Total observations must be positive"
  else if successes < 0 then
    .error "Successes cannot be negative"
  else if total < successes then
    .error "Successes cannot exceed total observations"
  else if ¬(0 < alpha ∧ alpha < 1) then
    .error "Alpha must be between 0 and 1"
  else
    .ok (proportion_ci_core successes total alpha)

/-- Model of Python `str.startswith`: character-list prefix test. -/
def strStartsWith (s pre : String) : Bool :=
  List.isPrefixOf pre.toList s.toList

/-- The `elif` chain in `guardrail_eval`'s key-scanning loop: classify one
rule key, returning the internal rule kind it selects (or `none`). -/
def ruleKindOf (key : String) : Option String :=
  if strStartsWith key "max_drop_pp" then some "drop_pp"
  else if strStartsWith key "max_drop_pct" then some "drop_pct"
  else if strStartsWith key "max_increase_pp" then some "increase_pp"
  else if strStartsWith key "max_increase_ms" then some "increase_ms"
  else if strStartsWith key "max_increase_pct" then some "increase_pct"
  else none

/-- The key-scanning loop of `guardrail_eval`, with `acc` the current
`(rule_type, threshold)` pair: each matching key overwrites it. -/
def resolveRuleGo (acc : Option (String × ℚ)) :
    List (String × ℚ) → Option (String × ℚ)
  | [] => acc
  | kv :: rest =>
    resolveRuleGo
      (match ruleKindOf kv.1 with
        | some k => some (k, kv.2)
        | none => acc)
      rest

/-- The key-scanning loop of `guardrail_eval`: iterate over the rule mapping
in insertion order starting from `rule_type = threshold = None`. -/
def resolveRule (rule : List (String × ℚ)) : Option (String × ℚ) :=
  resolveRuleGo none rule

/-- `guardrail_eval` from `stats_framework.py`, over exact rationals.
The rule dictionary is a key-value list in insertion order; raised
`ValueError`s are `Except.error`. Python's fixed-decimal number formatting
inside messages is abstracted to `toString`. -/
def guardrail_eval (baseline_value treatment_value : ℚ)
    (rule : List (String × ℚ)) : Except String (Bool × String) :=
  if rule.isEmpty then .error ("Rule must be a non-empty dictionary")
  else
    match resolveRule rule with
    | none => .error ("Unrecognized rule format")
    | some (rule_type, threshold) =>
      if rule_type = "drop_pp" then
        let delta := baseline_value - treatment_value
        let passed := decide (delta ≤ threshold)
        .ok (passed,
          "Drop of " ++ toString delta ++ "pp (baseline: " ++
            toString baseline_value ++ ", treatment: " ++
            toString treatment_value ++ "). Threshold: " ++ toString threshold ++
            "pp. " ++ (if passed then "PASS" else "FAIL"))
      else if rule_type = "drop_pct" then
        if baseline_value = 0 then
          .ok (false, "Cannot compute percent drop with baseline = 0")
        else
          let delta_pct := (baseline_value - treatment_value) / baseline_value * 100
          let passed := decide (delta_pct ≤ threshold)
          .ok (passed,
            "Drop of " ++ toString delta_pct ++ "% (baseline: " ++
              toString baseline_value ++ ", treatment: " ++
              toString treatment_value ++ "). Threshold: " ++
              toString threshold ++ "%. " ++ (if passed then "PASS" else "FAIL"))
      else if rule_type = "increase_pp" then
        let delta := treatment_value - baseline_value
        let passed := decide (delta ≤ threshold)
        .ok (passed,
          "Increase of " ++ toString delta ++ "pp (baseline: " ++
            toString baseline_value ++ ", treatment: " ++
            toString treatment_value ++ "). Threshold: " ++ toString threshold ++
            "pp. " ++ (if passed then "PASS" else "FAIL"))
      else if rule_type = "increase_ms" then
        let delta := treatment_value - baseline_value
        let passed := decide (delta ≤ threshold)
        .ok (passed,
          "Increase of " ++ toString delta ++ "ms (baseline: " ++
            toString baseline_value ++ "ms, treatment: " ++
            toString treatment_value ++ "ms). Threshold: " ++
            toString threshold ++ "ms. " ++ (if passed then "PASS" else "FAIL"))
      else if rule_type = "increase_pct" then
        if baseline_value = 0 then
          .ok (false, "Cannot compute percent increase with baseline = 0")
        else
          let delta_pct := (treatment_value - baseline_value) / baseline_value * 100
          let passed := decide (delta_pct ≤ threshold)
          .ok (passed,
            "Increase of " ++ toString delta_pct ++ "% (baseline: " ++
              toString baseline_value ++ ", treatment: " ++
              toString treatment_value ++ "). Threshold: " ++
              toString threshold ++ "%. " ++ (if passed then "PASS" else "FAIL"))
      else .error ("Unsupported rule type: " ++ rule_type)

/-!
## `src/analysis/sensitivity.py`
-/

/-- One row of the variant-counts warehouse query in `run_ccr_test`:
`(variant, adders, orderers)`. -/
structure VariantRow where
  variant : String
  adders : ℤ
  orderers : ℤ

/-- `run_ccr_test` from `sensitivity.py`. The DuckDB query is abstracted to
its outcome: `Except.error` models any raised exception (caught by the
function's `try/except`, which returns `(False, 1.0)`), `Except.ok rows`
models the fetched row list. Python's `[r for r in result if ...][0]`
(`IndexError` when empty, likewise caught) is `filter`/`head?`. -/
noncomputable def run_ccr_test (query : Except String (List VariantRow))
    (alpha : ℝ) : Bool × ℝ :=
  match query with
  | .error _ => (false, 1)
  | .ok rows =>
    if rows.length < 2 then (false, 1)
    else
      match (rows.filter fun r => r.variant == "control").head?,
            (rows.filter fun r => r.variant == "treatment").head? with
      | some control_data, some treatment_data =>
        match two_proportion_test control_data.orderers control_data.adders
            treatment_data.orderers treatment_data.adders alpha with
        | .ok res => (decide (res.p_value < alpha), res.p_value)
        | .error _ => (false, 1)
      | _, _ => (false, 1)

/-- Outcome of one trial's external steps, indexed by the trial's
`run_count`: the simulation subprocess fails, the warehouse build fails, or
both succeed and the CCR test runs against the given query outcome. -/
inductive TrialStep where
  | genFail : TrialStep
  | whFail : TrialStep
  | ccr : Except String (List VariantRow) → TrialStep

/-- Whether a trial increments `detections`: failed generation or warehouse
builds `continue` past the test; otherwise `run_ccr_test`'s verdict. -/
noncomputable def trialDetected (alpha : ℝ) (step : TrialStep) : Bool :=
  match step with
  | .genFail => false
  | .whFail => false
  | .ccr q => (run_ccr_test q alpha).1

/-- Bookkeeping of one trial of the sensitivity grid: its grid point, the
global `run_count` it drew, the derived seed (`seed + run_count`), the
derived date offset in days from the base date (`timedelta(days=run_count)`),
its external-step outcome and detection verdict. -/
structure Trial where
  users : ℤ
  uplift : ℚ
  run_count : ℕ
  run_seed : ℤ
  date_offset : ℕ
  step : TrialStep
  detected : Bool

/-- One per-grid-point result dictionary of `run_sensitivity_grid`. -/
structure GridResult where
  users_per_day : ℤ
  uplift : ℚ
  repeats : ℕ
  detections : ℕ
  detection_rate : ℚ
  alpha : ℝ

/-- The inner `for rep in range(repeats)` loop of `run_sensitivity_grid`,
starting from run counter `run_count`: returns the final run counter, the
detection count, and the trial records in execution order. -/
noncomputable def runRepeats (env : ℕ → TrialStep) (alpha : ℝ) (seed : ℤ)
    (users : ℤ) (uplift : ℚ) : ℕ → ℕ → ℕ × ℕ × List Trial
  | run_count, 0 => (run_count, 0, [])
  | run_count, reps + 1 =>
    let rc := run_count + 1
    let step := env rc
    let d : ℕ := if trialDetected alpha step then 1 else 0
    let rest := runRepeats env alpha seed users uplift rc reps
    (rest.1, d + rest.2.1,
      { users := users, uplift := uplift, run_count := rc, run_seed := seed + rc,
        date_offset := rc, step := step,
        detected := trialDetected alpha step } :: rest.2.2)

/-- The outer grid-point loop of `run_sensitivity_grid`, threading the run
counter through consecutive grid points. -/
noncomputable def runGrid (env : ℕ → TrialStep) (alpha : ℝ) (seed : ℤ)
    (repeats : ℕ) : List (ℤ × ℚ) → ℕ → List GridResult × List Trial
  | [], _ => ([], [])
  | (users, uplift) :: rest, run_count =>
    let r := runRepeats env alpha seed users uplift run_count repeats
    let detections := r.2.1
    let result : GridResult :=
      { users_per_day := users, uplift := uplift, repeats := repeats,
        detections := detections,
        detection_rate :=
          if 0 < repeats then (detections : ℚ) / (repeats : ℚ) else 0,
        alpha := alpha }
    let rem := runGrid env alpha seed repeats rest r.1
    (result :: rem.1, r.2.2 ++ rem.2)

/-- `run_sensitivity_grid` from `sensitivity.py`. External collaborators
(simulation subprocess, warehouse build, DuckDB query) are abstracted into
`env`, mapping each trial's unique `run_count` to its external outcome.
Grid points are enumerated as in the Python comprehension
`[(u, upl) for u in users_list for upl in uplifts_list]`; the run counter
starts at `0` and is incremented at the head of every repeat. -/
noncomputable def run_sensitivity_grid (env : ℕ → TrialStep)
    (users_list : List ℤ) (uplifts_list : List ℚ) (repeats : ℕ) (seed : ℤ)
    (alpha : ℝ) : List GridResult × List Trial :=
  runGrid env alpha seed repeats
    (users_list.flatMap fun u => uplifts_list.map fun upl => (u, upl)) 0

/-- The metadata dictionary built by `create_metadata`. -/
structure SensitivityMetadata where
  alpha : ℝ
  users_per_day : List ℤ
  uplifts : List ℚ
  grid_size : ℕ
  repeats : ℕ
  total_simulations : ℕ
  power_target : Option ℝ

/-- `create_metadata` from `sensitivity.py`. The generation timestamp and the
git commit hash are ambient-environment reads and are omitted from the model;
Python's `sorted` is modelled by a stable comparison sort. -/
def create_metadata (users_list : List ℤ) (uplifts_list : List ℚ)
    (repeats : ℕ) (alpha : ℝ) (power_target : Option ℝ) : SensitivityMetadata :=
  { alpha := alpha
    users_per_day := List.insertionSort (· ≤ ·) users_list
    uplifts := List.insertionSort (· ≤ ·) uplifts_list
    grid_size := users_list.length * uplifts_list.length
    repeats := repeats
    total_simulations := users_list.length * uplifts_list.length * repeats
    power_target := power_target }

/-- A query outcome on which `run_ccr_test` reaches and completes the
statistical test: at least two rows, both arm extractions succeed, and
`two_proportion_test` returns without raising; the returned p-value is then
the test's. -/
def testCompleted (q : Except String (List VariantRow)) (alpha : ℝ) : Prop :=
  ∃ rows control_data treatment_data res,
    q = .ok rows ∧ ¬(rows.length < 2) ∧
    (rows.filter fun r => r.variant == "control").head? = some control_data ∧
    (rows.filter fun r => r.variant == "treatment").head? = some treatment_data ∧
    two_proportion_test control_data.orderers control_data.adders
      treatment_data.orderers treatment_data.adders alpha = .ok res ∧
    (run_ccr_test q alpha).2 = res.p_value

/-!
## Theorems
-/

lemma continuous_exp_neg_sq : Continuous fun t : ℝ => Real.exp (-t ^ 2) :=
  Real.continuous_exp.comp (continuous_pow 2).neg

lemma integrableOn_exp_neg_sq_Ioi :
    IntegrableOn (fun t : ℝ => Real.exp (-t ^ 2)) (Set.Ioi 0) := by
  have h := (integrable_exp_neg_mul_sq (b := 1) one_pos).integrableOn (s := Set.Ioi 0)
  simpa using h

lemma integral_exp_neg_sq_Ioi :
    ∫ t in Set.Ioi (0:ℝ), Real.exp (-t ^ 2) = Real.sqrt Real.pi / 2 := by
  have h := integral_gaussian_Ioi 1
  simpa using h

lemma erf_zero : erf 0 = 0 := by
  simp [erf]

lemma erf_nonneg {x : ℝ} (hx : 0 ≤ x) : 0 ≤ erf x := by
  have h1 : 0 ≤ 2 / Real.sqrt Real.pi :=
    div_nonneg (by norm_num) (Real.sqrt_nonneg _)
  have h2 : 0 ≤ ∫ t in (0:ℝ)..x, Real.exp (-t ^ 2) :=
    intervalIntegral.integral_nonneg hx fun u _ => (Real.exp_pos _).le
  exact mul_nonneg h1 h2

lemma erf_pos {x : ℝ} (hx : 0 < x) : 0 < erf x := by
  have h1 : 0 < 2 / Real.sqrt Real.pi :=
    div_pos (by norm_num) (Real.sqrt_pos.mpr Real.pi_pos)
  have h2 : 0 < ∫ t in (0:ℝ)..x, Real.exp (-t ^ 2) :=
    intervalIntegral.intervalIntegral_pos_of_pos
      (continuous_exp_neg_sq.intervalIntegrable 0 x) (fun u => Real.exp_pos _) hx
  exact mul_pos h1 h2

lemma erf_le_one {x : ℝ} (hx : 0 ≤ x) : erf x ≤ 1 := by
  have key : ∫ t in (0:ℝ)..x, Real.exp (-t ^ 2) ≤ Real.sqrt Real.pi / 2 := by
    rw [intervalIntegral.integral_of_le hx, ← integral_exp_neg_sq_Ioi]
    refine setIntegral_mono_set integrableOn_exp_neg_sq_Ioi ?_ ?_
    · exact Filter.Eventually.of_forall fun t => (Real.exp_pos _).le
    · exact HasSubset.Subset.eventuallyLE Set.Ioc_subset_Ioi_self
  have hpos : 0 < Real.sqrt Real.pi := Real.sqrt_pos.mpr Real.pi_pos
  have h1 : 0 ≤ 2 / Real.sqrt Real.pi :=
    div_nonneg (by norm_num) (Real.sqrt_nonneg _)
  calc erf x ≤ 2 / Real.sqrt Real.pi * (Real.sqrt Real.pi / 2) :=
        mul_le_mul_of_nonneg_left key h1
    _ = 1 := by field_simp

lemma erf_eq_zero_iff {x : ℝ} (hx : 0 ≤ x) : erf x = 0 ↔ x = 0 := by
  constructor
  · intro h
    by_contra hne
    exact absurd h (ne_of_gt (erf_pos (lt_of_le_of_ne hx (Ne.symm hne))))
  · intro h
    rw [h, erf_zero]

lemma tpt_core_p_value (successes_a total_a successes_b total_b : ℤ) (alpha : ℝ) :
    (two_proportion_test_core successes_a total_a successes_b total_b alpha).p_value
      = tptPValue successes_a total_a successes_b total_b := rfl

lemma tpt_core_effect_abs (successes_a total_a successes_b total_b : ℤ) (alpha : ℝ) :
    (two_proportion_test_core successes_a total_a successes_b total_b alpha).effect_abs
      = tptEffectAbs successes_a total_a successes_b total_b := rfl

lemma two_proportion_test_ok {successes_a total_a successes_b total_b : ℤ}
    {alpha : ℝ} (hta : 0 < total_a) (htb : 0 < total_b)
    (hsa : 0 ≤ successes_a) (hsb : 0 ≤ successes_b)
    (hsata : successes_a ≤ total_a) (hsbtb : successes_b ≤ total_b)
    (ha0 : 0 < alpha) (ha1 : alpha < 1) :
    two_proportion_test successes_a total_a successes_b total_b alpha
      = .ok (two_proportion_test_core successes_a total_a successes_b total_b alpha) := by
  have h1 : ¬(total_a ≤ 0 ∨ total_b ≤ 0) := by push_neg; exact ⟨hta, htb⟩
  have h2 : ¬(successes_a < 0 ∨ successes_b < 0) := by push_neg; exact ⟨hsa, hsb⟩
  have h3 : ¬(total_a < successes_a ∨ total_b < successes_b) := by
    push_neg; exact ⟨hsata, hsbtb⟩
  have h4 : ¬¬(0 < alpha ∧ alpha < 1) := not_not.mpr ⟨ha0, ha1⟩
  simp only [two_proportion_test, if_neg h1, if_neg h2, if_neg h3, if_neg h4]

lemma tptPPooled_nonneg {successes_a total_a successes_b total_b : ℤ}
    (hta : 0 < total_a) (htb : 0 < total_b)
    (hsa : 0 ≤ successes_a) (hsb : 0 ≤ successes_b) :
    0 ≤ tptPPooled successes_a total_a successes_b total_b := by
  have h1 : (0:ℝ) ≤ (successes_a : ℝ) + (successes_b : ℝ) := by
    have := add_nonneg hsa hsb; exact_mod_cast this
  have h2 : (0:ℝ) ≤ (total_a : ℝ) + (total_b : ℝ) := by
    have := add_nonneg hta.le htb.le; exact_mod_cast this
  exact div_nonneg h1 h2

lemma se_pooled_eq_zero_imp {successes_a total_a successes_b total_b : ℤ}
    (hta : 0 < total_a) (htb : 0 < total_b)
    (hsa : 0 ≤ successes_a) (hsb : 0 ≤ successes_b)
    (hsata : successes_a ≤ total_a) (hsbtb : successes_b ≤ total_b) :
    tptSePooled successes_a total_a successes_b total_b = 0 →
      tptEffectAbs successes_a total_a successes_b total_b = 0 := by
  intro h
  have htaR : (0:ℝ) < (total_a : ℝ) := by exact_mod_cast hta
  have htbR : (0:ℝ) < (total_b : ℝ) := by exact_mod_cast htb
  have hsum : (0:ℝ) < (total_a : ℝ) + (total_b : ℝ) := by linarith
  have hppnn := tptPPooled_nonneg hta htb hsa hsb
  have hpple : tptPPooled successes_a total_a successes_b total_b ≤ 1 := by
    rw [tptPPooled, div_le_one hsum]
    have : successes_a + successes_b ≤ total_a + total_b := add_le_add hsata hsbtb
    exact_mod_cast this
  have hc : (0:ℝ) < 1 / (total_a : ℝ) + 1 / (total_b : ℝ) := by positivity
  have harg : tptPPooled successes_a total_a successes_b total_b *
      (1 - tptPPooled successes_a total_a successes_b total_b) *
      (1 / (total_a : ℝ) + 1 / (total_b : ℝ)) ≤ 0 := by
    by_contra hpos
    push_neg at hpos
    have hlt := Real.sqrt_pos.mpr hpos
    rw [tptSePooled] at h
    linarith
  have hprod : tptPPooled successes_a total_a successes_b total_b *
      (1 - tptPPooled successes_a total_a successes_b total_b) = 0 := by
    nlinarith
  rcases mul_eq_zero.mp hprod with h0 | h1
  · rw [tptPPooled, div_eq_zero_iff] at h0
    rcases h0 with hnum | hden
    · have hsaR : (0:ℝ) ≤ (successes_a : ℝ) := by exact_mod_cast hsa
      have hsbR : (0:ℝ) ≤ (successes_b : ℝ) := by exact_mod_cast hsb
      have hsa0 : (successes_a : ℝ) = 0 := by linarith
      have hsb0 : (successes_b : ℝ) = 0 := by linarith
      rw [tptEffectAbs, sample_proportion, sample_proportion, hsa0, hsb0]
      simp
    · exact absurd hden (ne_of_gt hsum)
  · have heq : (successes_a : ℝ) + (successes_b : ℝ)
        = (total_a : ℝ) + (total_b : ℝ) := by
      have h1' : tptPPooled successes_a total_a successes_b total_b = 1 := by linarith
      rw [tptPPooled, div_eq_one_iff_eq hsum.ne'] at h1'
      exact h1'
    have hsataR : (successes_a : ℝ) ≤ (total_a : ℝ) := by exact_mod_cast hsata
    have hsbtbR : (successes_b : ℝ) ≤ (total_b : ℝ) := by exact_mod_cast hsbtb
    have hsata' : (successes_a : ℝ) = (total_a : ℝ) := by linarith
    have hsbtb' : (successes_b : ℝ) = (total_b : ℝ) := by linarith
    rw [tptEffectAbs, sample_proportion, sample_proportion, hsata', hsbtb',
      div_self htaR.ne', div_self htbR.ne']
    ring

lemma z_stat_eq_zero_iff {successes_a total_a successes_b total_b : ℤ}
    (hta : 0 < total_a) (htb : 0 < total_b)
    (hsa : 0 ≤ successes_a) (hsb : 0 ≤ successes_b)
    (hsata : successes_a ≤ total_a) (hsbtb : successes_b ≤ total_b) :
    tptZStat successes_a total_a successes_b total_b = 0 ↔
      tptEffectAbs successes_a total_a successes_b total_b = 0 := by
  constructor
  · intro h
    rw [tptZStat] at h
    split_ifs at h with hse
    · exact (div_eq_zero_iff.mp h).resolve_right hse.ne'
    · have hse0 : tptSePooled successes_a total_a successes_b total_b = 0 :=
        le_antisymm (not_lt.mp hse) (Real.sqrt_nonneg _)
      exact se_pooled_eq_zero_imp hta htb hsa hsb hsata hsbtb hse0
  · intro h
    rw [tptZStat, h]
    split_ifs with hse
    · exact zero_div _
    · rfl

lemma tptPValue_eq (successes_a total_a successes_b total_b : ℤ) :
    tptPValue successes_a total_a successes_b total_b
      = 1 - erf (|tptZStat successes_a total_a successes_b total_b| / Real.sqrt 2) := by
  rw [tptPValue]; ring

/-- Claim C1: for every valid input (non-negative successes not exceeding
positive totals, alpha in (0,1)), `two_proportion_test` returns, and its
`p_value` lies in `[0,1]`, with `p_value = 1` exactly when `effect_abs = 0`
(in both directions, including the zero pooled-standard-error branch). -/
theorem C1_two_proportion_test_p_value
    (successes_a total_a successes_b total_b : ℤ) (alpha : ℝ)
    (hta : 0 < total_a) (htb : 0 < total_b)
    (hsa : 0 ≤ successes_a) (hsb : 0 ≤ successes_b)
    (hsata : successes_a ≤ total_a) (hsbtb : successes_b ≤ total_b)
    (ha0 : 0 < alpha) (ha1 : alpha < 1) :
    two_proportion_test successes_a total_a successes_b total_b alpha
      = .ok (two_proportion_test_core successes_a total_a successes_b total_b alpha) ∧
    0 ≤ (two_proportion_test_core successes_a total_a successes_b total_b alpha).p_value ∧
    (two_proportion_test_core successes_a total_a successes_b total_b alpha).p_value ≤ 1 ∧
    ((two_proportion_test_core successes_a total_a successes_b total_b alpha).p_value = 1
      ↔ (two_proportion_test_core successes_a total_a successes_b total_b alpha).effect_abs
          = 0) := by
  have hx : 0 ≤ |tptZStat successes_a total_a successes_b total_b| / Real.sqrt 2 :=
    div_nonneg (abs_nonneg _) (Real.sqrt_nonneg _)
  have hsqrt2 : (0:ℝ) < Real.sqrt 2 := Real.sqrt_pos.mpr (by norm_num)
  refine ⟨two_proportion_test_ok hta htb hsa hsb hsata hsbtb ha0 ha1, ?_, ?_, ?_⟩
  · rw [tpt_core_p_value, tptPValue_eq]
    have := erf_le_one hx
    linarith
  · rw [tpt_core_p_value, tptPValue_eq]
    have := erf_nonneg hx
    linarith
  · rw [tpt_core_p_value, tpt_core_effect_abs, tptPValue_eq]
    rw [show (1 - erf (|tptZStat successes_a total_a successes_b total_b| / Real.sqrt 2) = 1)
        ↔ erf (|tptZStat successes_a total_a successes_b total_b| / Real.sqrt 2) = 0 by
      constructor <;> intro h <;> linarith]
    rw [erf_eq_zero_iff hx, div_eq_zero_iff]
    constructor
    · intro h
      rcases h with h | h
      · exact (z_stat_eq_zero_iff hta htb hsa hsb hsata hsbtb).mp (abs_eq_zero.mp h)
      · exact absurd h hsqrt2.ne'
    · intro h
      exact Or.inl (abs_eq_zero.mpr
        ((z_stat_eq_zero_iff hta htb hsa hsb hsata hsbtb).mpr h))

/-- Witness for claim C1 at a concrete valid input. -/
theorem C1_witness :
    two_proportion_test 1 2 1 2 (1/2) = .ok (two_proportion_test_core 1 2 1 2 (1/2)) ∧
    0 ≤ (two_proportion_test_core 1 2 1 2 (1/2)).p_value ∧
    (two_proportion_test_core 1 2 1 2 (1/2)).p_value ≤ 1 ∧
    ((two_proportion_test_core 1 2 1 2 (1/2)).p_value = 1
      ↔ (two_proportion_test_core 1 2 1 2 (1/2)).effect_abs = 0) :=
  C1_two_proportion_test_p_value 1 2 1 2 (1/2) (by norm_num) (by norm_num)
    (by norm_num) (by norm_num) (by norm_num) (by norm_num) (by norm_num) (by norm_num)

lemma tptEffectAbs_swap (successes_a total_a successes_b total_b : ℤ) :
    tptEffectAbs successes_b total_b successes_a total_a
      = -(tptEffectAbs successes_a total_a successes_b total_b) := by
  rw [tptEffectAbs, tptEffectAbs]
  ring

lemma tptPPooled_swap (successes_a total_a successes_b total_b : ℤ) :
    tptPPooled successes_b total_b successes_a total_a
      = tptPPooled successes_a total_a successes_b total_b := by
  rw [tptPPooled, tptPPooled, add_comm ((successes_b : ℝ)) ((successes_a : ℝ)),
    add_comm ((total_b : ℝ)) ((total_a : ℝ))]

lemma tptSePooled_swap (successes_a total_a successes_b total_b : ℤ) :
    tptSePooled successes_b total_b successes_a total_a
      = tptSePooled successes_a total_a successes_b total_b := by
  rw [tptSePooled, tptSePooled, tptPPooled_swap,
    add_comm (1 / (total_b : ℝ)) (1 / (total_a : ℝ))]

lemma tptZStat_swap (successes_a total_a successes_b total_b : ℤ) :
    tptZStat successes_b total_b successes_a total_a
      = -(tptZStat successes_a total_a successes_b total_b) := by
  rw [tptZStat, tptZStat, tptSePooled_swap, tptEffectAbs_swap]
  split_ifs with h
  · rw [neg_div]
  · rw [neg_zero]

lemma tptPValue_swap (successes_a total_a successes_b total_b : ℤ) :
    tptPValue successes_b total_b successes_a total_a
      = tptPValue successes_a total_a successes_b total_b := by
  rw [tptPValue, tptPValue, tptZStat_swap, abs_neg]

/-- Claim C2: for every valid input, swapping the two arms yields a result
whose `effect_abs` is the negation of the original `effect_abs` and whose
`p_value` is unchanged. -/
theorem C2_two_proportion_test_swap
    (successes_a total_a successes_b total_b : ℤ) (alpha : ℝ)
    (hta : 0 < total_a) (htb : 0 < total_b)
    (hsa : 0 ≤ successes_a) (hsb : 0 ≤ successes_b)
    (hsata : successes_a ≤ total_a) (hsbtb : successes_b ≤ total_b)
    (ha0 : 0 < alpha) (ha1 : alpha < 1) :
    two_proportion_test successes_a total_a successes_b total_b alpha
      = .ok (two_proportion_test_core successes_a total_a successes_b total_b alpha) ∧
    two_proportion_test successes_b total_b successes_a total_a alpha
      = .ok (two_proportion_test_core successes_b total_b successes_a total_a alpha) ∧
    (two_proportion_test_core successes_b total_b successes_a total_a alpha).effect_abs
      = -(two_proportion_test_core successes_a total_a successes_b total_b alpha).effect_abs ∧
    (two_proportion_test_core successes_b total_b successes_a total_a alpha).p_value
      = (two_proportion_test_core successes_a total_a successes_b total_b alpha).p_value := by
  refine ⟨two_proportion_test_ok hta htb hsa hsb hsata hsbtb ha0 ha1,
    two_proportion_test_ok htb hta hsb hsa hsbtb hsata ha0 ha1, ?_, ?_⟩
  · rw [tpt_core_effect_abs, tpt_core_effect_abs, tptEffectAbs_swap]
  · rw [tpt_core_p_value, tpt_core_p_value, tptPValue_swap]

/-- Witness for claim C2 at a concrete valid input. -/
theorem C2_witness :
    two_proportion_test 1 3 2 4 (1/2)
      = .ok (two_proportion_test_core 1 3 2 4 (1/2)) ∧
    two_proportion_test 2 4 1 3 (1/2)
      = .ok (two_proportion_test_core 2 4 1 3 (1/2)) ∧
    (two_proportion_test_core 2 4 1 3 (1/2)).effect_abs
      = -(two_proportion_test_core 1 3 2 4 (1/2)).effect_abs ∧
    (two_proportion_test_core 2 4 1 3 (1/2)).p_value
      = (two_proportion_test_core 1 3 2 4 (1/2)).p_value :=
  C2_two_proportion_test_swap 1 3 2 4 (1/2) (by norm_num) (by norm_num) (by norm_num)
    (by norm_num) (by norm_num) (by norm_num) (by norm_num) (by norm_num)

lemma proportion_ci_core_fields (successes total : ℤ) (alpha : ℝ) :
    (proportion_ci_core successes total alpha).rate
        = (successes : ℝ) / (total : ℝ) ∧
    (proportion_ci_core successes total alpha).ci_low
        = max 0 ((successes : ℝ) / (total : ℝ) -
            (if alpha = 0.05 then 1.96 else |inverse_normal_cdf (alpha / 2)|) *
            Real.sqrt ((successes : ℝ) / (total : ℝ) *
              (1 - (successes : ℝ) / (total : ℝ)) / (total : ℝ))) ∧
    (proportion_ci_core successes total alpha).ci_high
        = min 1 ((successes : ℝ) / (total : ℝ) +
            (if alpha = 0.05 then 1.96 else |inverse_normal_cdf (alpha / 2)|) *
            Real.sqrt ((successes : ℝ) / (total : ℝ) *
              (1 - (successes : ℝ) / (total : ℝ)) / (total : ℝ))) :=
  ⟨rfl, rfl, rfl⟩

/-- Claim C3: for every valid input (`0 ≤ successes ≤ total`, `total > 0`,
alpha in (0,1)), `proportion_ci` returns a result with
`0 ≤ ci_low ≤ rate ≤ ci_high ≤ 1`. -/
theorem C3_proportion_ci_bounds (successes total : ℤ) (alpha : ℝ)
    (htotal : 0 < total) (hs : 0 ≤ successes) (hst : successes ≤ total)
    (ha0 : 0 < alpha) (ha1 : alpha < 1) :
    proportion_ci successes total alpha
      = .ok (proportion_ci_core successes total alpha) ∧
    0 ≤ (proportion_ci_core successes total alpha).ci_low ∧
    (proportion_ci_core successes total alpha).ci_low
      ≤ (proportion_ci_core successes total alpha).rate ∧
    (proportion_ci_core successes total alpha).rate
      ≤ (proportion_ci_core successes total alpha).ci_high ∧
    (proportion_ci_core successes total alpha).ci_high ≤ 1 := by
  have htR : (0:ℝ) < (total : ℝ) := by exact_mod_cast htotal
  have hrate0 : 0 ≤ (successes : ℝ) / (total : ℝ) :=
    div_nonneg (by exact_mod_cast hs) htR.le
  have hrate1 : (successes : ℝ) / (total : ℝ) ≤ 1 := by
    rw [div_le_one htR]; exact_mod_cast hst
  have hz : 0 ≤ (if alpha = 0.05 then (1.96:ℝ) else |inverse_normal_cdf (alpha / 2)|) := by
    split_ifs with h
    · norm_num
    · exact abs_nonneg _
  have hse : 0 ≤ Real.sqrt ((successes : ℝ) / (total : ℝ) *
      (1 - (successes : ℝ) / (total : ℝ)) / (total : ℝ)) := Real.sqrt_nonneg _
  have hzse : 0 ≤ (if alpha = 0.05 then (1.96:ℝ) else |inverse_normal_cdf (alpha / 2)|) *
      Real.sqrt ((successes : ℝ) / (total : ℝ) *
        (1 - (successes : ℝ) / (total : ℝ)) / (total : ℝ)) := mul_nonneg hz hse
  obtain ⟨hr, hlo, hhi⟩ := proportion_ci_core_fields successes total alpha
  refine ⟨?_, ?_, ?_, ?_, ?_⟩
  · have h1 : ¬(total ≤ 0) := not_le.mpr htotal
    have h2 : ¬(successes < 0) := not_lt.mpr hs
    have h3 : ¬(total < successes) := not_lt.mpr hst
    have h4 : ¬¬(0 < alpha ∧ alpha < 1) := not_not.mpr ⟨ha0, ha1⟩
    simp only [proportion_ci, if_neg h1, if_neg h2, if_neg h3, if_neg h4]
  · rw [hlo]; exact le_max_left _ _
  · rw [hlo, hr]
    exact max_le hrate0 (by linarith)
  · rw [hhi, hr]
    exact le_min hrate1 (by linarith)
  · rw [hhi]; exact min_le_left _ _

/-- Witness for claim C3 at a concrete valid input. -/
theorem C3_witness :
    proportion_ci 1 2 (1/2) = .ok (proportion_ci_core 1 2 (1/2)) ∧
    0 ≤ (proportion_ci_core 1 2 (1/2)).ci_low ∧
    (proportion_ci_core 1 2 (1/2)).ci_low ≤ (proportion_ci_core 1 2 (1/2)).rate ∧
    (proportion_ci_core 1 2 (1/2)).rate ≤ (proportion_ci_core 1 2 (1/2)).ci_high ∧
    (proportion_ci_core 1 2 (1/2)).ci_high ≤ 1 :=
  C3_proportion_ci_bounds 1 2 (1/2) (by norm_num) (by norm_num) (by norm_num)
    (by norm_num) (by norm_num)

lemma resolveRule_nil : resolveRule [] = none := rfl

lemma resolveRuleGo_eq (acc : Option (String × ℚ)) (l : List (String × ℚ)) :
    resolveRuleGo acc l
      = match resolveRule l with
        | some r => some r
        | none => acc := by
  induction l generalizing acc with
  | nil => rfl
  | cons kv tl ih =>
    have hl : resolveRule (kv :: tl)
        = resolveRuleGo
            (match ruleKindOf kv.1 with
              | some k => some (k, kv.2)
              | none => none) tl := rfl
    rw [resolveRuleGo, ih, hl, ih]
    cases hk : ruleKindOf kv.1 <;> cases hr : resolveRule tl <;> simp

lemma resolveRuleGo_append (acc : Option (String × ℚ))
    (l1 l2 : List (String × ℚ)) :
    resolveRuleGo acc (l1 ++ l2) = resolveRuleGo (resolveRuleGo acc l1) l2 := by
  induction l1 generalizing acc with
  | nil => rfl
  | cons kv tl ih =>
    rw [List.cons_append, resolveRuleGo, resolveRuleGo, ih]

lemma resolveRule_concat (l : List (String × ℚ)) (kv : String × ℚ) :
    resolveRule (l ++ [kv])
      = match ruleKindOf kv.1 with
        | some k => some (k, kv.2)
        | none => resolveRule l := by
  rw [resolveRule, resolveRuleGo_append]
  rw [show resolveRuleGo (resolveRuleGo none l) [kv]
      = resolveRuleGo
          (match ruleKindOf kv.1 with
            | some k => some (k, kv.2)
            | none => resolveRuleGo none l) [] from rfl]
  rw [resolveRuleGo, resolveRule]

lemma resolveRule_last_match (rule : List (String × ℚ)) :
    resolveRule rule
      = ((rule.filter fun kv => (ruleKindOf kv.1).isSome).getLast?).bind
          (fun kv => (ruleKindOf kv.1).map fun k => (k, kv.2)) := by
  induction rule using List.reverseRecOn with
  | nil => rfl
  | append_singleton l kv ih =>
    rw [resolveRule_concat, List.filter_append]
    cases hk : ruleKindOf kv.1 with
    | some k =>
      have hf : List.filter (fun kv => (ruleKindOf kv.1).isSome) [kv] = [kv] := by
        simp [List.filter, hk]
      rw [hf, List.getLast?_concat]
      simp [hk]
    | none =>
      have hf : List.filter (fun kv => (ruleKindOf kv.1).isSome) [kv] = [] := by
        simp [List.filter, hk]
      rw [hf, List.append_nil, ih]

lemma resolveRule_eq_none_iff (rule : List (String × ℚ)) :
    resolveRule rule = none ↔ ∀ kv ∈ rule, ruleKindOf kv.1 = none := by
  induction rule using List.reverseRecOn with
  | nil => simp [resolveRule_nil]
  | append_singleton l kv ih =>
    rw [resolveRule_concat]
    cases hk : ruleKindOf kv.1 with
    | some k =>
      show some (k, kv.2) = none ↔ _
      constructor
      · intro h
        exact Option.noConfusion h
      · intro hall
        have h := hall kv (List.mem_append_right _ (List.mem_singleton_self kv))
        rw [hk] at h
        exact Option.noConfusion h
    | none =>
      show resolveRule l = none ↔ _
      rw [ih]
      constructor
      · intro hall kv' hmem
        rcases List.mem_append.mp hmem with h | h
        · exact hall kv' h
        · rw [List.mem_singleton.mp h]
          exact hk
      · intro hall kv' hmem
        exact hall kv' (List.mem_append_left _ hmem)

lemma ruleKindOf_mem_kinds {key : String} {k : String}
    (h : ruleKindOf key = some k) :
    k = "drop_pp" ∨ k = "drop_pct" ∨ k = "increase_pp" ∨ k = "increase_ms" ∨
      k = "increase_pct" := by
  rw [ruleKindOf] at h
  split_ifs at h <;> simp only [Option.some.injEq] at h <;> tauto

lemma resolveRule_some_kind {rule : List (String × ℚ)} {k : String} {th : ℚ}
    (h : resolveRule rule = some (k, th)) :
    k = "drop_pp" ∨ k = "drop_pct" ∨ k = "increase_pp" ∨ k = "increase_ms" ∨
      k = "increase_pct" := by
  rw [resolveRule_last_match] at h
  rcases Option.bind_eq_some.mp h with ⟨kv, _, hmap⟩
  rcases Option.map_eq_some'.mp hmap with ⟨k', hk', heq⟩
  have : k' = k := by
    have := congrArg Prod.fst heq
    simpa using this
  exact this ▸ ruleKindOf_mem_kinds hk'

lemma resolveRule_some_ne_nil {rule : List (String × ℚ)} {r : String × ℚ}
    (h : resolveRule rule = some r) : rule ≠ [] := by
  rintro rfl
  rw [resolveRule_nil] at h
  exact Option.noConfusion h

/-- Claim C4: `guardrail_eval` uses an inclusive bound: under a `max_drop_pp`
rule, whenever the computed delta (baseline − treatment) equals the threshold
exactly, the outcome is `passed = true`; in particular
`guardrail_eval(0.92, 0.917, max_drop_pp 0.003)` has delta `0.003` and
passes. -/
theorem C4_guardrail_inclusive_bound :
    (∀ (baseline_value treatment_value threshold : ℚ)
        (rule : List (String × ℚ)),
      resolveRule rule = some ("drop_pp", threshold) →
      baseline_value - treatment_value = threshold →
      (guardrail_eval baseline_value treatment_value rule).map Prod.fst
        = .ok true) ∧
    (0.92 - 0.917 : ℚ) = 0.003 ∧
    (guardrail_eval 0.92 0.917 [("max_drop_pp", 0.003)]).map Prod.fst
      = .ok true := by
  have hgen : ∀ (baseline_value treatment_value threshold : ℚ)
      (rule : List (String × ℚ)),
      resolveRule rule = some ("drop_pp", threshold) →
      baseline_value - treatment_value = threshold →
      (guardrail_eval baseline_value treatment_value rule).map Prod.fst
        = .ok true := by
    intro b t th rule hres hdelta
    obtain ⟨kv, tl, rfl⟩ :=
      List.exists_cons_of_ne_nil (resolveRule_some_ne_nil hres)
    simp only [guardrail_eval, List.isEmpty_cons, hres]
    rw [hdelta]
    simp [Except.map]
  refine ⟨hgen, by norm_num, ?_⟩
  exact hgen 0.92 0.917 0.003 [("max_drop_pp", 0.003)] rfl (by norm_num)

/-- Witness for claim C4's universally quantified part at a concrete input. -/
theorem C4_witness :
    (guardrail_eval 1 0 [("max_drop_pp", 1)]).map Prod.fst = .ok true :=
  C4_guardrail_inclusive_bound.1 1 0 1 [("max_drop_pp", 1)] rfl (by norm_num)

lemma guardrail_eval_ok_of_resolved {rule : List (String × ℚ)} {k : String}
    {th : ℚ} (hres : resolveRule rule = some (k, th)) (b t : ℚ) :
    ∃ p, guardrail_eval b t rule = .ok p := by
  obtain ⟨kv, tl, rfl⟩ :=
    List.exists_cons_of_ne_nil (resolveRule_some_ne_nil hres)
  have hk := resolveRule_some_kind hres
  simp only [guardrail_eval, List.isEmpty_cons, hres]
  rcases hk with h | h | h | h | h <;> subst h
  · simp
  · by_cases hb : b = 0 <;> simp [hb]
  · simp
  · simp
  · by_cases hb : b = 0 <;> simp [hb]

/-- Claim C5: the last matching key (in the mapping's iteration order)
determines both the rule kind and the threshold, and `guardrail_eval` raises
the unrecognized-rule `ValueError` exactly when no key of a non-empty
mapping matches any of the five recognized prefixes. -/
theorem C5_guardrail_rule_resolution :
    (∀ rule : List (String × ℚ),
      resolveRule rule
        = ((rule.filter fun kv => (ruleKindOf kv.1).isSome).getLast?).bind
            (fun kv => (ruleKindOf kv.1).map fun k => (k, kv.2))) ∧
    (∀ (baseline_value treatment_value : ℚ) (rule : List (String × ℚ)),
      rule ≠ [] →
      ((∃ e, guardrail_eval baseline_value treatment_value rule = .error e)
        ↔ ∀ kv ∈ rule, ruleKindOf kv.1 = none)) := by
  refine ⟨resolveRule_last_match, ?_⟩
  intro b t rule hne
  constructor
  · rintro ⟨e, he⟩
    by_contra hnotall
    have hsome : ¬(resolveRule rule = none) := fun h =>
      hnotall ((resolveRule_eq_none_iff rule).mp h)
    obtain ⟨⟨k, th⟩, hres⟩ := Option.ne_none_iff_exists'.mp hsome
    obtain ⟨p, hp⟩ := guardrail_eval_ok_of_resolved hres b t
    rw [hp] at he
    exact Except.noConfusion he
  · intro hall
    have hres : resolveRule rule = none := (resolveRule_eq_none_iff rule).mpr hall
    obtain ⟨kv, tl, rfl⟩ := List.exists_cons_of_ne_nil hne
    exact ⟨"Unrecognized rule format", by simp [guardrail_eval, hres]⟩

/-- Witness for claim C5 at concrete inputs: a two-key rule resolves to the
later key, and a single unrecognized key is rejected. -/
theorem C5_witness :
    (resolveRule [("max_drop_pp", (1:ℚ)), ("max_drop_pct", 2)]
      = (([("max_drop_pp", (1:ℚ)), ("max_drop_pct", 2)].filter
          fun kv => (ruleKindOf kv.1).isSome).getLast?).bind
          (fun kv => (ruleKindOf kv.1).map fun k => (k, kv.2))) ∧
    ((∃ e, guardrail_eval 1 1 [("bogus", (1:ℚ))] = .error e)
      ↔ ∀ kv ∈ [("bogus", (1:ℚ))], ruleKindOf kv.1 = none) :=
  ⟨C5_guardrail_rule_resolution.1 _,
    C5_guardrail_rule_resolution.2 1 1 _ (by simp)⟩

/-- Claim C6: with a `max_drop_pct` or `max_increase_pct` rule and a zero
baseline, `guardrail_eval` returns normally with `passed = false` and an
explanatory message; it does not raise. -/
theorem C6_guardrail_zero_baseline :
    (∀ (treatment_value threshold : ℚ) (rule : List (String × ℚ)),
      resolveRule rule = some ("drop_pct", threshold) →
      guardrail_eval 0 treatment_value rule
        = .ok (false, "Cannot compute percent drop with baseline = 0")) ∧
    (∀ (treatment_value threshold : ℚ) (rule : List (String × ℚ)),
      resolveRule rule = some ("increase_pct", threshold) →
      guardrail_eval 0 treatment_value rule
        = .ok (false, "Cannot compute percent increase with baseline = 0")) := by
  constructor <;>
    · intro t th rule hres
      obtain ⟨kv, tl, rfl⟩ :=
        List.exists_cons_of_ne_nil (resolveRule_some_ne_nil hres)
      simp [guardrail_eval, List.isEmpty_cons, hres]

/-- Witness for claim C6 at concrete inputs. -/
theorem C6_witness :
    guardrail_eval 0 5 [("max_drop_pct", (1:ℚ))]
      = .ok (false, "Cannot compute percent drop with baseline = 0") ∧
    guardrail_eval 0 5 [("max_increase_pct", (1:ℚ))]
      = .ok (false, "Cannot compute percent increase with baseline = 0") :=
  ⟨C6_guardrail_zero_baseline.1 5 1 _ rfl,
    C6_guardrail_zero_baseline.2 5 1 _ rfl⟩

/-- Claim C9 counterexample: with a duplicated users value, `create_metadata`
reports the sorted list with duplicates retained (`[10, 10]`, not the sorted
distinct `[10]`) and a grid size of `2`, not the distinct-count product `1`;
so the claim fails at `users_list = [10, 10]`, `uplifts_list = [0]`,
`repeats = 1`. -/
theorem C9_counterexample :
    (create_metadata [10, 10] [0] 1 (1/2) none).users_per_day = [10, 10] ∧
    (create_metadata [10, 10] [0] 1 (1/2) none).users_per_day ≠ [10] ∧
    (create_metadata [10, 10] [0] 1 (1/2) none).grid_size = 2 ∧
    ([(10:ℤ), 10].dedup.length * [(0:ℚ)].dedup.length = 1) := by
  refine ⟨by decide, by decide, rfl, by decide⟩

/-- Claim C9 (amended): the metadata record contains the users and uplift
values sorted ascending with duplicates preserved (a sorted permutation of
the input lists), a grid size equal to the length of the users list times
the length of the uplifts list (counting duplicates), and a total trial
count equal to grid size times repeats. -/
theorem C9_create_metadata_amended (users_list : List ℤ)
    (uplifts_list : List ℚ) (repeats : ℕ) (alpha : ℝ)
    (power_target : Option ℝ) :
    (create_metadata users_list uplifts_list repeats alpha
      power_target).users_per_day.Perm users_list ∧
    (create_metadata users_list uplifts_list repeats alpha
      power_target).users_per_day.Sorted (· ≤ ·) ∧
    (create_metadata users_list uplifts_list repeats alpha
      power_target).uplifts.Perm uplifts_list ∧
    (create_metadata users_list uplifts_list repeats alpha
      power_target).uplifts.Sorted (· ≤ ·) ∧
    (create_metadata users_list uplifts_list repeats alpha
      power_target).grid_size = users_list.length * uplifts_list.length ∧
    (create_metadata users_list uplifts_list repeats alpha
      power_target).total_simulations
      = (create_metadata users_list uplifts_list repeats alpha
          power_target).grid_size * repeats ∧
    (create_metadata users_list uplifts_list repeats alpha
      power_target).repeats = repeats :=
  ⟨List.perm_insertionSort _ _, List.sorted_insertionSort _ _,
    List.perm_insertionSort _ _, List.sorted_insertionSort _ _, rfl, rfl, rfl⟩

lemma run_ccr_test_detected_iff (q : Except String (List VariantRow))
    (alpha : ℝ) :
    (run_ccr_test q alpha).1 = true
      ↔ testCompleted q alpha ∧ (run_ccr_test q alpha).2 < alpha := by
  cases q with
  | error e => simp [run_ccr_test, testCompleted]
  | ok rows =>
    by_cases hlen : rows.length < 2
    · simp [run_ccr_test, hlen, testCompleted]
    · have hlen' : 2 ≤ rows.length := Nat.not_lt.mp hlen
      cases hc : rows.find? (fun r => r.variant == "control") with
      | none =>
        cases ht : rows.find? (fun r => r.variant == "treatment") <;>
          simp [run_ccr_test, hlen, hc, ht, testCompleted]
      | some control_data =>
        cases ht : rows.find? (fun r => r.variant == "treatment") with
        | none => simp [run_ccr_test, hlen, hc, ht, testCompleted]
        | some treatment_data =>
          cases htest : two_proportion_test control_data.orderers
              control_data.adders treatment_data.orderers treatment_data.adders
              alpha with
          | error e =>
            simp [run_ccr_test, hlen, hc, ht, htest, testCompleted]
          | ok res =>
            simp [run_ccr_test, hlen, hlen', hc, ht, htest, testCompleted]

/-- Claim C10: whenever the per-trial test step fails — the warehouse query
raises, returns fewer than two variant rows, an arm row is missing, or the
statistical test raises — `run_ccr_test` returns normally with
`detected = false` and `p_value = 1.0`. -/
theorem C10_run_ccr_test_failure_modes :
    (∀ (e : String) (alpha : ℝ), run_ccr_test (.error e) alpha = (false, 1)) ∧
    (∀ (rows : List VariantRow) (alpha : ℝ), rows.length < 2 →
      run_ccr_test (.ok rows) alpha = (false, 1)) ∧
    (∀ (rows : List VariantRow) (alpha : ℝ), ¬(rows.length < 2) →
      ((rows.filter fun r => r.variant == "control").head? = none ∨
        (rows.filter fun r => r.variant == "treatment").head? = none) →
      run_ccr_test (.ok rows) alpha = (false, 1)) ∧
    (∀ (rows : List VariantRow) (alpha : ℝ)
        (control_data treatment_data : VariantRow) (e : String),
      ¬(rows.length < 2) →
      (rows.filter fun r => r.variant == "control").head? = some control_data →
      (rows.filter fun r => r.variant == "treatment").head? = some treatment_data →
      two_proportion_test control_data.orderers control_data.adders
        treatment_data.orderers treatment_data.adders alpha = .error e →
      run_ccr_test (.ok rows) alpha = (false, 1)) := by
  refine ⟨fun e alpha => rfl, fun rows alpha hlen => by simp [run_ccr_test, hlen],
    ?_, ?_⟩
  · intro rows alpha hlen hnone
    rcases hnone with hc | ht
    · cases ht : (rows.filter fun r => r.variant == "treatment").head? <;>
        simp [run_ccr_test, hlen, hc, ht]
    · cases hc : (rows.filter fun r => r.variant == "control").head? <;>
        simp [run_ccr_test, hlen, hc, ht]
  · intro rows alpha control_data treatment_data e hlen hc ht htest
    simp [run_ccr_test, hlen, hc, ht, htest]

/-- Witness for claim C10 at concrete failing inputs. -/
theorem C10_witness :
    run_ccr_test (.ok []) 1 = (false, 1) :=
  C10_run_ccr_test_failure_modes.2.1 [] 1 (by norm_num)

lemma runRepeats_fst (env : ℕ → TrialStep) (alpha : ℝ) (seed : ℤ)
    (users : ℤ) (uplift : ℚ) (rc reps : ℕ) :
    (runRepeats env alpha seed users uplift rc reps).1 = rc + reps := by
  induction reps generalizing rc with
  | zero => rfl
  | succ n ih =>
    simp only [runRepeats]
    rw [ih]
    omega

lemma runRepeats_detections (env : ℕ → TrialStep) (alpha : ℝ) (seed : ℤ)
    (users : ℤ) (uplift : ℚ) (rc reps : ℕ) :
    (runRepeats env alpha seed users uplift rc reps).2.1
      = (List.range' (rc + 1) reps).countP
          (fun i => trialDetected alpha (env i)) := by
  induction reps generalizing rc with
  | zero => rfl
  | succ n ih =>
    simp only [runRepeats]
    rw [ih, List.range'_succ]
    simp only [List.countP_cons]
    omega

lemma runRepeats_trials_map (env : ℕ → TrialStep) (alpha : ℝ) (seed : ℤ)
    (users : ℤ) (uplift : ℚ) (rc reps : ℕ) :
    ((runRepeats env alpha seed users uplift rc reps).2.2).map
        (fun tr => tr.run_count)
      = List.range' (rc + 1) reps := by
  induction reps generalizing rc with
  | zero => rfl
  | succ n ih =>
    simp only [runRepeats, List.map_cons]
    rw [ih, List.range'_succ]

lemma runRepeats_trials_mem (env : ℕ → TrialStep) (alpha : ℝ) (seed : ℤ)
    (users : ℤ) (uplift : ℚ) (rc reps : ℕ) :
    ∀ tr ∈ (runRepeats env alpha seed users uplift rc reps).2.2,
      tr.users = users ∧ tr.uplift = uplift ∧
      tr.run_seed = seed + (tr.run_count : ℤ) ∧
      tr.date_offset = tr.run_count ∧ tr.step = env tr.run_count ∧
      tr.detected = trialDetected alpha (env tr.run_count) := by
  induction reps generalizing rc with
  | zero =>
    intro tr htr
    simp [runRepeats] at htr
  | succ n ih =>
    intro tr htr
    simp only [runRepeats] at htr
    rcases List.mem_cons.mp htr with h | h
    · subst h
      exact ⟨rfl, rfl, rfl, rfl, rfl, rfl⟩
    · exact ih (rc + 1) tr h

lemma runGrid_results (env : ℕ → TrialStep) (alpha : ℝ) (seed : ℤ)
    (reps : ℕ) (points : List (ℤ × ℚ)) :
    ∀ (rc : ℕ), ∀ gr ∈ (runGrid env alpha seed reps points rc).1,
      gr.repeats = reps ∧
      gr.detection_rate
        = (if 0 < reps then (gr.detections : ℚ) / (reps : ℚ) else 0) ∧
      ∃ rc0, gr.detections
        = (List.range' (rc0 + 1) reps).countP
            (fun i => trialDetected alpha (env i)) := by
  induction points with
  | nil =>
    intro rc gr hgr
    simp [runGrid] at hgr
  | cons p rest ih =>
    intro rc gr hgr
    obtain ⟨u, upl⟩ := p
    simp only [runGrid] at hgr
    rcases List.mem_cons.mp hgr with h | h
    · subst h
      exact ⟨rfl, rfl, rc, runRepeats_detections env alpha seed u upl rc reps⟩
    · exact ih _ gr h

lemma length_grid_points (users_list : List ℤ) (uplifts_list : List ℚ) :
    (users_list.flatMap fun u => uplifts_list.map fun upl => (u, upl)).length
      = users_list.length * uplifts_list.length := by
  induction users_list with
  | nil => simp
  | cons u rest ih =>
    simp only [List.flatMap_cons, List.length_append, List.length_map, ih,
      List.length_cons]
    ring

lemma runGrid_trials_map (env : ℕ → TrialStep) (alpha : ℝ) (seed : ℤ)
    (reps : ℕ) (points : List (ℤ × ℚ)) :
    ∀ (rc : ℕ), ((runGrid env alpha seed reps points rc).2).map
        (fun tr => tr.run_count)
      = List.range' (rc + 1) (points.length * reps) := by
  induction points with
  | nil =>
    intro rc
    simp [runGrid]
  | cons p rest ih =>
    intro rc
    obtain ⟨u, upl⟩ := p
    simp only [runGrid, List.map_append]
    rw [runRepeats_trials_map, runRepeats_fst, ih]
    rw [show rc + reps + 1 = (rc + 1) + 1 * reps by omega]
    rw [List.range'_append]
    simp only [List.length_cons]
    congr 1
    ring

lemma runGrid_trials_mem (env : ℕ → TrialStep) (alpha : ℝ) (seed : ℤ)
    (reps : ℕ) (points : List (ℤ × ℚ)) :
    ∀ (rc : ℕ), ∀ tr ∈ (runGrid env alpha seed reps points rc).2,
      tr.run_seed = seed + (tr.run_count : ℤ) ∧
      tr.date_offset = tr.run_count := by
  induction points with
  | nil =>
    intro rc tr htr
    simp [runGrid] at htr
  | cons p rest ih =>
    intro rc tr htr
    obtain ⟨u, upl⟩ := p
    simp only [runGrid] at htr
    rcases List.mem_append.mp htr with h | h
    · obtain ⟨_, _, hseed, hdate, _, _⟩ :=
        runRepeats_trials_mem env alpha seed u upl rc reps tr h
      exact ⟨hseed, hdate⟩
    · exact ih _ tr h

/-- Claim C7: for every grid point, `detection_rate = detections / repeats`
with the configured `repeats` as denominator (failed trials do not reduce
it: detections counts over exactly `repeats` consecutive run counters), a
trial counts as detected only when its step completed the statistical test
with `p_value < alpha` (failed generation or warehouse steps never count),
and consequently `detections ≤ repeats` and `0 ≤ detection_rate ≤ 1`. -/
theorem C7_detection_rate (env : ℕ → TrialStep) (users_list : List ℤ)
    (uplifts_list : List ℚ) (repeats : ℕ) (seed : ℤ) (alpha : ℝ) :
    (∀ gr ∈ (run_sensitivity_grid env users_list uplifts_list repeats seed
        alpha).1,
      gr.repeats = repeats ∧
      gr.detections ≤ repeats ∧
      gr.detection_rate
        = (if 0 < repeats then (gr.detections : ℚ) / (repeats : ℚ) else 0) ∧
      0 ≤ gr.detection_rate ∧ gr.detection_rate ≤ 1 ∧
      ∃ rc0, gr.detections
        = (List.range' (rc0 + 1) repeats).countP
            (fun i => trialDetected alpha (env i))) ∧
    (∀ q, trialDetected alpha (.ccr q) = true
      ↔ testCompleted q alpha ∧ (run_ccr_test q alpha).2 < alpha) ∧
    trialDetected alpha .genFail = false ∧
    trialDetected alpha .whFail = false := by
  refine ⟨?_, fun q => run_ccr_test_detected_iff q alpha, rfl, rfl⟩
  intro gr hgr
  obtain ⟨hreps, hrate, rc0, hdet⟩ :=
    runGrid_results env alpha seed repeats _ 0 gr hgr
  have hle : gr.detections ≤ repeats := by
    rw [hdet]
    calc (List.range' (rc0 + 1) repeats).countP
          (fun i => trialDetected alpha (env i))
        ≤ (List.range' (rc0 + 1) repeats).length := List.countP_le_length _
      _ = repeats := List.length_range' _ _ _
  refine ⟨hreps, hle, hrate, ?_, ?_, rc0, hdet⟩
  · rw [hrate]
    split_ifs with h
    · positivity
    · exact le_refl 0
  · rw [hrate]
    split_ifs with h
    · rw [div_le_one (by exact_mod_cast h)]
      exact_mod_cast hle
    · norm_num

/-- Witness for claim C7: a one-point grid whose single trial fails at the
generation step still reports `repeats = 1` in the denominator. -/
theorem C7_witness :
    ({ users_per_day := 1, uplift := 0, repeats := 1, detections := 0, detection_rate := 0, alpha := 1 } : GridResult).repeats = 1 ∧
    ({ users_per_day := 1, uplift := 0, repeats := 1, detections := 0, detection_rate := 0, alpha := 1 } : GridResult).detections ≤ 1 ∧
    ({ users_per_day := 1, uplift := 0, repeats := 1, detections := 0, detection_rate := 0, alpha := 1 } : GridResult).detection_rate
      = (if 0 < 1 then (({ users_per_day := 1, uplift := 0, repeats := 1, detections := 0, detection_rate := 0, alpha := 1 } : GridResult).detections : ℚ) / ((1 : ℕ) : ℚ) else 0) ∧
    0 ≤ ({ users_per_day := 1, uplift := 0, repeats := 1, detections := 0, detection_rate := 0, alpha := 1 } : GridResult).detection_rate ∧
    ({ users_per_day := 1, uplift := 0, repeats := 1, detections := 0, detection_rate := 0, alpha := 1 } : GridResult).detection_rate ≤ 1 ∧
    ∃ rc0, ({ users_per_day := 1, uplift := 0, repeats := 1, detections := 0, detection_rate := 0, alpha := 1 } : GridResult).detections
      = (List.range' (rc0 + 1) 1).countP
          (fun i => trialDetected 1 ((fun _ => TrialStep.genFail) i)) :=
  (C7_detection_rate (fun _ => TrialStep.genFail) [1] [0] 1 0 1).1
    { users_per_day := 1, uplift := 0, repeats := 1, detections := 0, detection_rate := 0, alpha := 1 }
    (by norm_num [run_sensitivity_grid, runGrid, runRepeats, trialDetected])

/-- Claim C8: across an entire grid run the trials draw the strictly
increasing run counters `1, 2, …`; each trial's seed is the base seed plus
its run counter and its simulated date is the base date plus the same
counter in days, so no two trials of one run share a seed or a date. -/
theorem C8_trial_seed_date_uniqueness (env : ℕ → TrialStep)
    (users_list : List ℤ) (uplifts_list : List ℚ) (repeats : ℕ) (seed : ℤ)
    (alpha : ℝ) :
    ((run_sensitivity_grid env users_list uplifts_list repeats seed
        alpha).2).map (fun tr => tr.run_count)
      = List.range' 1 (users_list.length * uplifts_list.length * repeats) ∧
    (∀ tr ∈ (run_sensitivity_grid env users_list uplifts_list repeats seed
        alpha).2,
      tr.run_seed = seed + (tr.run_count : ℤ) ∧
      tr.date_offset = tr.run_count) ∧
    ((run_sensitivity_grid env users_list uplifts_list repeats seed
        alpha).2).Pairwise
      (fun t1 t2 => t1.run_seed ≠ t2.run_seed ∧
        t1.date_offset ≠ t2.date_offset) := by
  have hmap := runGrid_trials_map env alpha seed repeats
    (users_list.flatMap fun u => uplifts_list.map fun upl => (u, upl)) 0
  rw [length_grid_points] at hmap
  have hmap' : ((run_sensitivity_grid env users_list uplifts_list repeats seed
      alpha).2).map (fun tr => tr.run_count)
      = List.range' 1 (users_list.length * uplifts_list.length * repeats) := by
    simpa using hmap
  refine ⟨hmap', ?_, ?_⟩
  · intro tr htr
    exact runGrid_trials_mem env alpha seed repeats _ 0 tr htr
  · have hnd : (((run_sensitivity_grid env users_list uplifts_list repeats seed
        alpha).2).map (fun tr => tr.run_count)).Nodup := by
      rw [hmap']
      exact List.nodup_range' _ _
    have hpw : ((run_sensitivity_grid env users_list uplifts_list repeats seed
        alpha).2).Pairwise (fun t1 t2 => t1.run_count ≠ t2.run_count) :=
      List.pairwise_map.mp hnd
    refine List.Pairwise.imp_of_mem ?_ hpw
    intro t1 t2 h1 h2 hne
    obtain ⟨hs1, hd1⟩ := runGrid_trials_mem env alpha seed repeats _ 0 t1 h1
    obtain ⟨hs2, hd2⟩ := runGrid_trials_mem env alpha seed repeats _ 0 t2 h2
    constructor
    · rw [hs1, hs2]
      intro hcon
      exact hne (by exact_mod_cast add_left_cancel hcon)
    · rw [hd1, hd2]
      exact hne

/-- Witness for claim C8's per-trial part at a concrete one-trial run. -/
theorem C8_witness :
    ({ users := 1, uplift := 0, run_count := 1, run_seed := 1, date_offset := 1, step := TrialStep.genFail, detected := false } : Trial).run_seed
      = 0 + (({ users := 1, uplift := 0, run_count := 1, run_seed := 1, date_offset := 1, step := TrialStep.genFail, detected := false } : Trial).run_count : ℤ) ∧
    ({ users := 1, uplift := 0, run_count := 1, run_seed := 1, date_offset := 1, step := TrialStep.genFail, detected := false } : Trial).date_offset
      = ({ users := 1, uplift := 0, run_count := 1, run_seed := 1, date_offset := 1, step := TrialStep.genFail, detected := false } : Trial).run_count :=
  (C8_trial_seed_date_uniqueness (fun _ => TrialStep.genFail) [1] [0] 1 0
      1).2.1
    { users := 1, uplift := 0, run_count := 1, run_seed := 1, date_offset := 1, step := TrialStep.genFail, detected := false }
    (by norm_num [run_sensitivity_grid, runGrid, runRepeats, trialDetected])
